import Mathlib

/-!
Audio capture and preprocessing pipeline (`edge-impulse-wrapper.cpp`).

A shallow embedding of `EdgeImpulseWrapper` and of the `EdgeImpulseHelper`
functions, followed by the properties of the pipeline.

Conventions of the embedding.

* A C++ `float` is a value of `Flt`: an exact rational or NaN.  Rounding and
  infinities are not modelled (arithmetic on finite values is exact, so nothing
  overflows); NaN is, because the code can produce one by dividing zero by zero.
* `int` is `Int`; the one `int` multiplication of the program is reduced to the
  signed 32-bit range by `wrapInt32`.  `size_t` is `Nat` reduced modulo
  `2 ^ w`, where `w` is the width of `size_t` on the target.
* `std::vector<float>` is `List Flt`; capacity (`reserve`) is not modelled and
  allocation is assumed to succeed.
* `cos`, the simulated sample generator (`sin` plus `rand` noise) and the measured
  processing time are inputs of the functions that use them.
-/

namespace VoiceRecognition

/-! ## Floats -/

/-- A `float`: a finite value, held exactly, or NaN. -/
inductive Flt where
  | fin (q : ℚ)
  | nan
  deriving DecidableEq

namespace Flt

/-- Float addition; NaN propagates. -/
def add : Flt → Flt → Flt
  | fin a, fin b => fin (a + b)
  | _, _ => nan

/-- Float subtraction; NaN propagates. -/
def sub : Flt → Flt → Flt
  | fin a, fin b => fin (a - b)
  | _, _ => nan

/-- Float multiplication; NaN propagates. -/
def mul : Flt → Flt → Flt
  | fin a, fin b => fin (a * b)
  | _, _ => nan

/-- Float division.  IEEE 754 gives NaN for `0 / 0`.  A nonzero value divided by
zero is an infinity, which `Flt` does not hold; the program never performs such a
division (the only divisor that can be zero is `length - 1` at `length = 1`, where
the dividend is `2π · 0`), and the embedding maps it to `nan` as well. -/
def div : Flt → Flt → Flt
  | fin a, fin b => if b = 0 then nan else fin (a / b)
  | _, _ => nan

instance : Add Flt := ⟨add⟩
instance : Sub Flt := ⟨sub⟩
instance : Mul Flt := ⟨mul⟩
instance : Div Flt := ⟨div⟩

/-- The function `std::abs` on a float. -/
def abs : Flt → Flt
  | fin a => fin |a|
  | nan => nan

/-- The comparison `a < b` on floats: false as soon as one side is NaN. -/
def lt : Flt → Flt → Bool
  | fin a, fin b => decide (a < b)
  | _, _ => false

/-- The function `std::max(a, b)`, which is `(a < b) ? b : a`. -/
def max (a b : Flt) : Flt := if lt a b then b else a

/-- Conversion of a `size_t` to `float`. -/
def ofNat (n : Nat) : Flt := fin (n : ℚ)

/-- The library cosine, given by its action `cosf` on finite values; the cosine of
NaN is NaN. -/
def cos (cosf : ℚ → ℚ) : Flt → Flt
  | fin a => fin (cosf a)
  | nan => nan

end Flt

/-! ## Machine integers and vectors -/

/-- Reduction of an integer to the range of a 32-bit `int`. -/
def wrapInt32 (x : Int) : Int := (x + 2 ^ 31) % 2 ^ 32 - 2 ^ 31

/-- Conversion of an `int` to a `size_t` of `w` bits. -/
def toSizeT (w : Nat) (x : Int) : Nat := (x % 2 ^ w).toNat

/-- The method `std::vector::resize(n, v)`: keep the first `n` elements, or append
copies of `v` up to length `n`. -/
def resize {α : Type} (xs : List α) (n : Nat) (v : α) : List α :=
  xs.take n ++ List.replicate (n - xs.length) v

/-! ## Data model (`edge-impulse-wrapper.h`) -/

/-- The struct `RecognitionResult`. -/
structure RecognitionResult where
  keyword : String
  confidence : ℚ
  processingTimeMs : Int
  deriving DecidableEq

/-- The struct `AudioConfig`. -/
structure AudioConfig where
  samplingFrequency : Int
  samplingDurationMs : Int
  bufferSize : Int
  deriving DecidableEq

def DEFAULT_SAMPLING_FREQUENCY : Int := 16000
def DEFAULT_SAMPLING_DURATION_MS : Int := 1000

/-- The default constructor `AudioConfig()`. -/
def AudioConfig.default : AudioConfig :=
  { samplingFrequency := DEFAULT_SAMPLING_FREQUENCY
    samplingDurationMs := DEFAULT_SAMPLING_DURATION_MS
    bufferSize :=
      Int.tdiv (DEFAULT_SAMPLING_FREQUENCY * DEFAULT_SAMPLING_DURATION_MS) 1000 }

/-- The state of an `EdgeImpulseWrapper` object.  The field `registered` records
whether the file-level pointer `s_currentWrapper` points to this object. -/
structure EdgeImpulseWrapper where
  config : AudioConfig
  audioBuffer : List Flt
  featureBuffer : List Flt
  lastResult : RecognitionResult
  initialized : Bool
  registered : Bool
  deriving DecidableEq

/-! ## `EdgeImpulseHelper` -/

namespace EdgeImpulseHelper

/-- `isValidSamplingFrequency`: `frequency >= 8000 && frequency <= 48000`. -/
def isValidSamplingFrequency (frequency : Int) : Bool :=
  decide (frequency ≥ 8000) && decide (frequency ≤ 48000)

/-- `isValidSamplingDuration`: `duration >= 100 && duration <= 5000`. -/
def isValidSamplingDuration (duration : Int) : Bool :=
  decide (duration ≥ 100) && decide (duration ≤ 5000)

/-- `normalizeAudioData`: return on length 0; take the maximum of `std::abs`
over the buffer starting from `0.0f`; divide every sample by it when it is
`> 0.0f`. -/
def normalizeAudioData (data : List Flt) : List Flt :=
  if data.length = 0 then data
  else
    let maxVal := data.foldl (fun m x => Flt.max m (Flt.abs x)) (Flt.fin 0)
    if Flt.lt (Flt.fin 0) maxVal then data.map (fun x => x / maxVal) else data

/-- The loop of `applyPreEmphasis`, entered at index `i` and running down to
index 1: `data[i] = data[i] - coefficient * data[i - 1]`, in place. -/
def preEmphasisLoop (coefficient : Flt) : Nat → List Flt → List Flt
  | 0, data => data
  | i + 1, data =>
    preEmphasisLoop coefficient i
      (data.set (i + 1)
        (data.getD (i + 1) Flt.nan - coefficient * data.getD i Flt.nan))

/-- `applyPreEmphasis`: return on `length <= 1`, else run the loop from
`length - 1`. -/
def applyPreEmphasis (data : List Flt) (coefficient : Flt) : List Flt :=
  if data.length ≤ 1 then data
  else preEmphasisLoop coefficient (data.length - 1) data

/-- The window factor of `applyHammingWindow` at index `i`:
`0.54f - 0.46f * cos(2.0f * 3.14159f * i / (length - 1))`. -/
def hammingFactor (cosf : ℚ → ℚ) (i length : Nat) : Flt :=
  Flt.fin (54 / 100) - Flt.fin (46 / 100) *
    Flt.cos cosf
      (Flt.fin 2 * Flt.fin (314159 / 100000) * Flt.ofNat i / Flt.ofNat (length - 1))

/-- `applyHammingWindow`: return on length 0, else multiply every sample by the
window factor of its index. -/
def applyHammingWindow (cosf : ℚ → ℚ) (data : List Flt) : List Flt :=
  if data.length = 0 then data
  else data.enum.map (fun p => p.2 * hammingFactor cosf p.1 data.length)

end EdgeImpulseHelper

/-! ## `EdgeImpulseWrapper` -/

namespace EdgeImpulseWrapper

/-- The default pre-emphasis coefficient `0.97f` of the header. -/
def preEmphasisCoefficient : Flt := Flt.fin (97 / 100)

/-- The constructor: not initialized, default configuration, empty buffers. -/
def construct : EdgeImpulseWrapper :=
  { config := AudioConfig.default
    audioBuffer := []
    featureBuffer := []
    lastResult := { keyword := "", confidence := 0, processingTimeMs := 0 }
    initialized := false
    registered := false }

/-- `updateAudioConfig`: recompute `bufferSize` and clear the audio buffer. -/
def updateAudioConfig (s : EdgeImpulseWrapper) : EdgeImpulseWrapper :=
  { s with
    config :=
      { s.config with
        bufferSize :=
          Int.tdiv
            (wrapInt32 (s.config.samplingFrequency * s.config.samplingDurationMs)) 1000 }
    audioBuffer := [] }

/-- The method `initialize()` with its return value.  Nothing throws in the
embedding, so the `catch` branch is absent. -/
def initializeWrapper (s : EdgeImpulseWrapper) : Bool × EdgeImpulseWrapper :=
  if s.initialized then (true, s)
  else (true, { updateAudioConfig s with registered := true, initialized := true })

/-- The method `deinitialize()`. -/
def deinitializeWrapper (s : EdgeImpulseWrapper) : EdgeImpulseWrapper :=
  if s.initialized then { s with registered := false, initialized := false } else s

/-- `setSamplingFrequency`. -/
def setSamplingFrequency (frequency : Int) (s : EdgeImpulseWrapper) : EdgeImpulseWrapper :=
  if EdgeImpulseHelper.isValidSamplingFrequency frequency then
    updateAudioConfig { s with config := { s.config with samplingFrequency := frequency } }
  else s

/-- `setSamplingDuration`. -/
def setSamplingDuration (durationMs : Int) (s : EdgeImpulseWrapper) : EdgeImpulseWrapper :=
  if EdgeImpulseHelper.isValidSamplingDuration durationMs then
    updateAudioConfig { s with config := { s.config with samplingDurationMs := durationMs } }
  else s

/-- The length-adaptation step of `preprocessAudioData` (the `if` on
`audioBuffer.size() != 11000`): truncate to 11000 samples or pad with `0.0f`. -/
def adaptLength (audioBuffer : List Flt) : List Flt :=
  if audioBuffer.length ≠ 11000 then
    if audioBuffer.length > 11000 then resize audioBuffer 11000 (Flt.fin 0)
    else resize audioBuffer 11000 (Flt.fin 0)
  else audioBuffer

/-- `preprocessAudioData` with its return value: `-1` on an empty buffer, else
length adaptation, Hamming window, normalization, pre-emphasis, and `0`. -/
def preprocessAudioData (cosf : ℚ → ℚ) (s : EdgeImpulseWrapper) : Int × EdgeImpulseWrapper :=
  if s.audioBuffer.isEmpty then (-1, s)
  else
    let b0 := adaptLength s.audioBuffer
    let b1 := EdgeImpulseHelper.applyHammingWindow cosf b0
    let b2 := EdgeImpulseHelper.normalizeAudioData b1
    let b3 := EdgeImpulseHelper.applyPreEmphasis b2 preEmphasisCoefficient
    (0, { s with audioBuffer := b3 })

/-- `captureAudio` with its return value.  `raw i` is the sample `signal + noise`
that the generator stores at index `i`. -/
def captureAudio (w : Nat) (cosf : ℚ → ℚ) (raw : Nat → Flt) (s : EdgeImpulseWrapper) :
    Bool × EdgeImpulseWrapper :=
  if !s.initialized then (false, s)
  else
    let n := toSizeT w s.config.bufferSize
    let r := preprocessAudioData cosf { s with audioBuffer := (List.range n).map raw }
    (r.1 == 0, r.2)

/-- The value `RecognitionResult("error", 0.0f, 0)`. -/
def errorResult : RecognitionResult :=
  { keyword := "error", confidence := 0, processingTimeMs := 0 }

/-- `processAudio` with its return value; `elapsedMs` is the measured time. -/
def processAudio (w : Nat) (cosf : ℚ → ℚ) (raw : Nat → Flt) (elapsedMs : Int)
    (s : EdgeImpulseWrapper) : RecognitionResult × EdgeImpulseWrapper :=
  if !s.initialized then (errorResult, s)
  else
    let c := captureAudio w cosf raw s
    if !c.1 then (errorResult, c.2)
    else
      let r : RecognitionResult :=
        { keyword := "microbit", confidence := 85 / 100, processingTimeMs := elapsedMs }
      (r, { c.2 with lastResult := r })

/-- `getSignalData(offset, length, out_ptr)`: the return value and the elements
that `memcpy` stores at `out_ptr`.  Element `i` is read at `audioBuffer[offset + i]`;
`none` stands for a read outside the vector. -/
def getSignalData (w : Nat) (offset length : Nat) (s : EdgeImpulseWrapper) :
    Int × List (Option Flt) :=
  if (offset + length) % 2 ^ w > s.audioBuffer.length then (-1, [])
  else (0, (List.range length).map (fun i => s.audioBuffer[offset + i]?))

end EdgeImpulseWrapper

/-! ## Call sequences -/

/-- A configuration call on the wrapper. -/
inductive ConfigCall where
  | init
  | setSamplingFrequency (frequency : Int)
  | setSamplingDuration (durationMs : Int)

/-- A call on the wrapper: a configuration call, or `captureAudio` with the
samples the generator produces during that call. -/
inductive Call where
  | config (c : ConfigCall)
  | captureAudio (raw : Nat → Flt)

/-- The state after a configuration call. -/
def ConfigCall.apply (c : ConfigCall) (s : EdgeImpulseWrapper) : EdgeImpulseWrapper :=
  match c with
  | .init => (EdgeImpulseWrapper.initializeWrapper s).2
  | .setSamplingFrequency f => EdgeImpulseWrapper.setSamplingFrequency f s
  | .setSamplingDuration d => EdgeImpulseWrapper.setSamplingDuration d s

/-- The state after a call. -/
def Call.apply (w : Nat) (cosf : ℚ → ℚ) (c : Call) (s : EdgeImpulseWrapper) :
    EdgeImpulseWrapper :=
  match c with
  | .config c => c.apply s
  | .captureAudio raw => (EdgeImpulseWrapper.captureAudio w cosf raw s).2

/-- The state after a sequence of configuration calls, first call first. -/
def runConfig (cs : List ConfigCall) (s : EdgeImpulseWrapper) : EdgeImpulseWrapper :=
  cs.foldl (fun t c => c.apply t) s

/-- The state after a sequence of calls, first call first. -/
def runCalls (w : Nat) (cosf : ℚ → ℚ) (cs : List Call) (s : EdgeImpulseWrapper) :
    EdgeImpulseWrapper :=
  cs.foldl (fun t c => c.apply w cosf t) s

/-- A rational polynomial standing in for the cosine where a concrete function is
needed to evaluate the pipeline. -/
def cosPoly (x : ℚ) : ℚ := 1 - x ^ 2 / 2 + x ^ 4 / 24


open EdgeImpulseWrapper EdgeImpulseHelper

/-- The stored `bufferSize` is exactly the floor of `frequency * durationMs / 1000`,
and the product `frequency * durationMs` is in the range of a 32-bit `int`. -/
def BufferSizeExact (c : AudioConfig) : Prop :=
  c.bufferSize = ⌊((c.samplingFrequency * c.samplingDurationMs : Int) : ℚ) / 1000⌋ ∧
  -2 ^ 31 ≤ c.samplingFrequency * c.samplingDurationMs ∧
  c.samplingFrequency * c.samplingDurationMs < 2 ^ 31

/-! ## Basic facts -/

/-- The configuration invariant: frequency and duration are in their accepted
ranges and `bufferSize` is the quotient of their product by 1000. -/
def ConfigValid (s : EdgeImpulseWrapper) : Prop :=
  (8000 ≤ s.config.samplingFrequency ∧ s.config.samplingFrequency ≤ 48000) ∧
  (100 ≤ s.config.samplingDurationMs ∧ s.config.samplingDurationMs ≤ 5000) ∧
  s.config.bufferSize = s.config.samplingFrequency * s.config.samplingDurationMs / 1000

theorem product_bounds {f d : Int} (hf : 8000 ≤ f ∧ f ≤ 48000) (hd : 100 ≤ d ∧ d ≤ 5000) :
    800000 ≤ f * d ∧ f * d ≤ 240000000 := by
  obtain ⟨hf1, hf2⟩ := hf
  obtain ⟨hd1, hd2⟩ := hd
  constructor <;> nlinarith

theorem wrapInt32_of_range {x : Int} (h0 : -2 ^ 31 ≤ x) (h1 : x < 2 ^ 31) :
    wrapInt32 x = x := by
  unfold wrapInt32
  norm_num at h0 h1 ⊢
  omega

theorem bufferSize_of_valid {f d : Int} (hf : 8000 ≤ f ∧ f ≤ 48000)
    (hd : 100 ≤ d ∧ d ≤ 5000) :
    Int.tdiv (wrapInt32 (f * d)) 1000 = f * d / 1000 := by
  obtain ⟨hp0, hp1⟩ := product_bounds hf hd
  rw [wrapInt32_of_range (by norm_num; omega) (by norm_num; omega)]
  exact Int.tdiv_eq_ediv (by omega) (by norm_num)

theorem isValidSamplingFrequency_iff (f : Int) :
    isValidSamplingFrequency f = true ↔ 8000 ≤ f ∧ f ≤ 48000 := by
  simp [isValidSamplingFrequency]

theorem isValidSamplingDuration_iff (d : Int) :
    isValidSamplingDuration d = true ↔ 100 ≤ d ∧ d ≤ 5000 := by
  simp [isValidSamplingDuration]

theorem configValid_construct : ConfigValid construct := by
  refine ⟨?_, ?_, ?_⟩ <;>
    simp [construct, AudioConfig.default, DEFAULT_SAMPLING_FREQUENCY,
      DEFAULT_SAMPLING_DURATION_MS]
  rfl

theorem configValid_updateAudioConfig {s : EdgeImpulseWrapper}
    (hf : 8000 ≤ s.config.samplingFrequency ∧ s.config.samplingFrequency ≤ 48000)
    (hd : 100 ≤ s.config.samplingDurationMs ∧ s.config.samplingDurationMs ≤ 5000) :
    ConfigValid (updateAudioConfig s) :=
  ⟨hf, hd, bufferSize_of_valid hf hd⟩

theorem configValid_setSamplingFrequency {s : EdgeImpulseWrapper} (f : Int)
    (h : ConfigValid s) : ConfigValid (setSamplingFrequency f s) := by
  unfold setSamplingFrequency
  split
  · next hv =>
    exact configValid_updateAudioConfig ((isValidSamplingFrequency_iff f).1 hv) h.2.1
  · exact h

theorem configValid_setSamplingDuration {s : EdgeImpulseWrapper} (d : Int)
    (h : ConfigValid s) : ConfigValid (setSamplingDuration d s) := by
  unfold setSamplingDuration
  split
  · next hv =>
    exact configValid_updateAudioConfig h.1 ((isValidSamplingDuration_iff d).1 hv)
  · exact h

theorem configValid_initializeWrapper {s : EdgeImpulseWrapper} (h : ConfigValid s) :
    ConfigValid (initializeWrapper s).2 := by
  unfold initializeWrapper
  split
  · exact h
  · exact configValid_updateAudioConfig h.1 h.2.1

theorem configValid_apply {s : EdgeImpulseWrapper} (c : ConfigCall) (h : ConfigValid s) :
    ConfigValid (c.apply s) := by
  cases c with
  | init => exact configValid_initializeWrapper h
  | setSamplingFrequency f => exact configValid_setSamplingFrequency f h
  | setSamplingDuration d => exact configValid_setSamplingDuration d h

theorem configValid_runConfig (cs : List ConfigCall) :
    ∀ s : EdgeImpulseWrapper, ConfigValid s → ConfigValid (runConfig cs s) := by
  induction cs with
  | nil => intro s h; exact h
  | cons c cs ih => intro s h; exact ih _ (configValid_apply c h)

theorem preprocessAudioData_config (cosf : ℚ → ℚ) (s : EdgeImpulseWrapper) :
    (preprocessAudioData cosf s).2.config = s.config ∧
    (preprocessAudioData cosf s).2.initialized = s.initialized := by
  unfold preprocessAudioData
  split <;> simp

theorem captureAudio_config (w : Nat) (cosf : ℚ → ℚ) (raw : Nat → Flt)
    (s : EdgeImpulseWrapper) :
    (captureAudio w cosf raw s).2.config = s.config ∧
    (captureAudio w cosf raw s).2.initialized = s.initialized := by
  unfold captureAudio
  split
  · simp
  · exact preprocessAudioData_config cosf _

theorem configValid_call {s : EdgeImpulseWrapper} (w : Nat) (cosf : ℚ → ℚ) (c : Call)
    (h : ConfigValid s) : ConfigValid (c.apply w cosf s) := by
  cases c with
  | config c => exact configValid_apply c h
  | captureAudio raw =>
    have hc := (captureAudio_config w cosf raw s).1
    unfold ConfigValid at h ⊢
    simp only [Call.apply, hc]
    exact h

theorem configValid_runCalls (w : Nat) (cosf : ℚ → ℚ) (cs : List Call) :
    ∀ s : EdgeImpulseWrapper, ConfigValid s → ConfigValid (runCalls w cosf cs s) := by
  induction cs with
  | nil => intro s h; exact h
  | cons c cs ih => intro s h; exact ih _ (configValid_call w cosf c h)

theorem bufferSizeExact_of_valid {s : EdgeImpulseWrapper} (h : ConfigValid s) :
    BufferSizeExact s.config := by
  have hb := product_bounds h.1 h.2.1
  refine ⟨?_, ?_, ?_⟩
  · have hfl := Rat.floor_intCast_div_natCast
      (s.config.samplingFrequency * s.config.samplingDurationMs) 1000
    rw [h.2.2]
    simpa using hfl.symm
  · norm_num; omega
  · norm_num; omega

/-! ## Configuration -/

/-- C2: a frequency outside `[8000, 48000]` given to `setSamplingFrequency`, and a
duration outside `[100, 5000]` given to `setSamplingDuration`, leave the whole
state unchanged: frequency, duration, `bufferSize` and the audio buffer. -/
theorem setSampling_invalid_unchanged (s : EdgeImpulseWrapper) (f d : Int)
    (hf : f < 8000 ∨ 48000 < f) (hd : d < 100 ∨ 5000 < d) :
    setSamplingFrequency f s = s ∧ setSamplingDuration d s = s := by
  constructor
  · have hv : isValidSamplingFrequency f = false := by
      rw [← Bool.not_eq_true, isValidSamplingFrequency_iff]; omega
    simp [setSamplingFrequency, hv]
  · have hv : isValidSamplingDuration d = false := by
      rw [← Bool.not_eq_true, isValidSamplingDuration_iff]; omega
    simp [setSamplingDuration, hv]

theorem setSampling_invalid_unchanged_witness :
    ((7999 : Int) < 8000 ∨ (48000 : Int) < 7999) ∧ ((5001 : Int) < 100 ∨ (5000 : Int) < 5001) ∧
    setSamplingFrequency 7999 construct = construct ∧
    setSamplingDuration 5001 construct = construct :=
  ⟨by decide, by decide,
    setSampling_invalid_unchanged construct 7999 5001 (by decide) (by decide)⟩

/-- C3: in every state reached from the constructed wrapper by `initialize`,
`setSamplingFrequency` and `setSamplingDuration` calls, a valid
`setSamplingFrequency f` stores `f`, a valid `setSamplingDuration d` stores `d`,
and after either `bufferSize` is the floor of `frequency * durationMs / 1000`,
the product lying in the range of a 32-bit `int`. -/
theorem bufferSize_after_valid_set (cs : List ConfigCall) (f d : Int)
    (hf : 8000 ≤ f ∧ f ≤ 48000) (hd : 100 ≤ d ∧ d ≤ 5000) :
    ((setSamplingFrequency f (runConfig cs construct)).config.samplingFrequency = f ∧
      BufferSizeExact (setSamplingFrequency f (runConfig cs construct)).config) ∧
    ((setSamplingDuration d (runConfig cs construct)).config.samplingDurationMs = d ∧
      BufferSizeExact (setSamplingDuration d (runConfig cs construct)).config) := by
  have hs := configValid_runConfig cs construct configValid_construct
  constructor
  · refine ⟨?_, bufferSizeExact_of_valid (configValid_setSamplingFrequency f hs)⟩
    simp [setSamplingFrequency, (isValidSamplingFrequency_iff f).2 hf, updateAudioConfig]
  · refine ⟨?_, bufferSizeExact_of_valid (configValid_setSamplingDuration d hs)⟩
    simp [setSamplingDuration, (isValidSamplingDuration_iff d).2 hd, updateAudioConfig]

theorem bufferSize_after_valid_set_witness :
    ((8000 : Int) ≤ 11000 ∧ (11000 : Int) ≤ 48000) ∧ ((100 : Int) ≤ 250 ∧ (250 : Int) ≤ 5000) ∧
    ((setSamplingFrequency 11000
        (runConfig [.init, .setSamplingDuration 7] construct)).config.samplingFrequency
        = 11000 ∧
      BufferSizeExact (setSamplingFrequency 11000
        (runConfig [.init, .setSamplingDuration 7] construct)).config) ∧
    ((setSamplingDuration 250
        (runConfig [.init, .setSamplingDuration 7] construct)).config.samplingDurationMs
        = 250 ∧
      BufferSizeExact (setSamplingDuration 250
        (runConfig [.init, .setSamplingDuration 7] construct)).config) :=
  ⟨by decide, by decide,
    bufferSize_after_valid_set [.init, .setSamplingDuration 7] 11000 250
      (by decide) (by decide)⟩

/-! ## Calls before initialization -/

/-- C9: when `initialized` is false, `captureAudio` returns false and
`processAudio` returns the error result `("error", 0.0, 0)`, and both leave the
whole state (configuration, audio buffer, last result) as it was. -/
theorem uninitialized_calls_fail (w : Nat) (cosf : ℚ → ℚ) (raw : Nat → Flt) (elapsedMs : Int)
    (s : EdgeImpulseWrapper) (h : s.initialized = false) :
    captureAudio w cosf raw s = (false, s) ∧
    processAudio w cosf raw elapsedMs s =
      ({ keyword := "error", confidence := 0, processingTimeMs := 0 }, s) := by
  constructor
  · simp [captureAudio, h]
  · simp [processAudio, h, errorResult]

theorem uninitialized_calls_fail_witness :
    construct.initialized = false ∧
    captureAudio 32 cosPoly (fun _ => Flt.fin 1) construct = (false, construct) ∧
    processAudio 32 cosPoly (fun _ => Flt.fin 1) 50 construct =
      ({ keyword := "error", confidence := 0, processingTimeMs := 0 }, construct) :=
  ⟨rfl, uninitialized_calls_fail 32 cosPoly (fun _ => Flt.fin 1) 50 construct rfl⟩

/-! ## The read window -/

/-- When `offset + length` does not wrap around in `size_t`, `getSignalData` does
what its bounds check is written for: `-1` and no copy when the sum exceeds the
buffer length, else `0` and the slice `audioBuffer[offset .. offset + length)`. -/
theorem getSignalData_of_no_wrap (w offset length : Nat) (s : EdgeImpulseWrapper)
    (hsum : offset + length < 2 ^ w) :
    (offset + length > s.audioBuffer.length → getSignalData w offset length s = (-1, [])) ∧
    (offset + length ≤ s.audioBuffer.length →
      getSignalData w offset length s =
        (0, ((s.audioBuffer.drop offset).take length).map some)) := by
  have hmod : (offset + length) % 2 ^ w = offset + length := Nat.mod_eq_of_lt hsum
  constructor
  · intro h
    simp [getSignalData, hmod, h]
  · intro h
    have hn : ¬ (s.audioBuffer.length < offset + length) := by omega
    simp only [getSignalData, hmod, gt_iff_lt, hn, if_false, Prod.mk.injEq, true_and]
    apply List.ext_getElem?
    intro i
    by_cases hi : i < length
    · have h2 : offset + i < s.audioBuffer.length := by omega
      simp [List.getElem?_range hi, List.getElem?_take_of_lt hi, List.getElem?_drop,
        List.getElem?_eq_getElem h2]
    · have h1 : ((List.range length).map (fun i => s.audioBuffer[offset + i]?))[i]? = none := by
        apply List.getElem?_eq_none; simp; omega
      have h2 : (((s.audioBuffer.drop offset).take length).map some)[i]? = none := by
        apply List.getElem?_eq_none; simp; omega
      rw [h1, h2]

/-- C1: with a 32-bit `size_t`, the arguments `offset = 2^32 - 1`, `length = 1` on
the empty buffer of a constructed wrapper have `offset + length = 2^32 > 0` as
natural numbers, yet the sum wraps to 0, the bounds check passes, and
`getSignalData` returns 0 and copies one element read outside the vector; the
same happens with a 64-bit `size_t` at `offset = 2^64 - 1`. -/
theorem getSignalData_wraparound :
    (4294967295 + 1 > construct.audioBuffer.length ∧
      getSignalData 32 4294967295 1 construct = (0, [none])) ∧
    (18446744073709551615 + 1 > construct.audioBuffer.length ∧
      getSignalData 64 18446744073709551615 1 construct = (0, [none])) := by
  refine ⟨⟨by decide, ?_⟩, ⟨by decide, ?_⟩⟩ <;>
    simp [getSignalData, construct]

/-! ## Preprocessing: the empty buffer and the length adaptation -/

/-- C6, amended to what the code does: `preprocessAudioData` on a buffer of length
0 returns `-1` and leaves the state, hence the empty buffer, unchanged.  The
length-adaptation step, had it been applied, would have produced 11000 zero
samples; the guard on the empty buffer returns before it. -/
theorem preprocessAudioData_empty (cosf : ℚ → ℚ) (s : EdgeImpulseWrapper)
    (h : s.audioBuffer = []) :
    preprocessAudioData cosf s = (-1, s) ∧
    adaptLength s.audioBuffer = List.replicate 11000 (Flt.fin 0) := by
  constructor
  · simp [preprocessAudioData, h]
  · rw [h]
    have h1 : ¬ (0 : Nat) = 11000 := by decide
    simp only [adaptLength, ne_eq, resize, List.take_nil, List.nil_append, List.length_nil,
      Nat.sub_zero, h1, not_false_eq_true, if_true, ite_self]

theorem preprocessAudioData_empty_witness :
    construct.audioBuffer = [] ∧
    preprocessAudioData cosPoly construct = (-1, construct) ∧
    adaptLength construct.audioBuffer = List.replicate 11000 (Flt.fin 0) :=
  ⟨rfl, preprocessAudioData_empty cosPoly construct rfl⟩

/-- C6 fails as stated: on the empty buffer of a constructed wrapper
`preprocessAudioData` does not both return 0 and leave 11000 zero samples. -/
theorem empty_buffer_not_padded :
    ¬ ((preprocessAudioData cosPoly construct).1 = 0 ∧
      (preprocessAudioData cosPoly construct).2.audioBuffer =
        List.replicate 11000 (Flt.fin 0)) := by
  rintro ⟨h, -⟩
  have hret : (preprocessAudioData cosPoly construct).1 = -1 := by
    simp [preprocessAudioData, construct]
  rw [hret] at h
  exact absurd h (by decide)

theorem resize_length {α : Type} (xs : List α) (n : Nat) (v : α) :
    (resize xs n v).length = n := by
  simp [resize]; omega

theorem adaptLength_length (xs : List Flt) : (adaptLength xs).length = 11000 := by
  unfold adaptLength
  split
  · split <;> exact resize_length _ _ _
  · next h => simpa using h

/-- C4: the length-adaptation step yields a buffer of length exactly 11000.  If the
input has at least 11000 samples, the output is its first 11000 samples in order;
if it has `L < 11000` samples, the first `L` output samples are the input samples
and the samples at indices `L .. 10999` are zero. -/
theorem adaptLength_spec (xs : List Flt) :
    (adaptLength xs).length = 11000 ∧
    (11000 ≤ xs.length → ∀ i, i < 11000 → (adaptLength xs)[i]? = xs[i]?) ∧
    (xs.length < 11000 →
      (∀ i, i < xs.length → (adaptLength xs)[i]? = xs[i]?) ∧
      (∀ i, xs.length ≤ i → i < 11000 → (adaptLength xs)[i]? = some (Flt.fin 0))) := by
  refine ⟨adaptLength_length xs, ?_, ?_⟩
  · intro hL i hi
    unfold adaptLength
    split
    · have hlen : (xs.take 11000).length = 11000 := by simp; omega
      simp only [ite_self, resize]
      rw [List.getElem?_append_left (by omega), List.getElem?_take_of_lt hi]
    · rfl
  · intro hL
    have hne : xs.length ≠ 11000 := by omega
    have hng : ¬ xs.length > 11000 := by omega
    have htake : xs.take 11000 = xs := List.take_of_length_le (by omega)
    simp only [adaptLength, hne, hng, ne_eq, not_false_eq_true, if_true, if_false, resize, htake]
    constructor
    · intro i hi
      rw [List.getElem?_append_left hi]
    · intro i h1 h2
      rw [List.getElem?_append_right h1, List.getElem?_replicate_of_lt (by omega)]

theorem adaptLength_spec_witness :
    ([Flt.fin 1, Flt.fin 2] : List Flt).length < 11000 ∧
    (adaptLength [Flt.fin 1, Flt.fin 2])[1]? = ([Flt.fin 1, Flt.fin 2] : List Flt)[1]? ∧
    (adaptLength [Flt.fin 1, Flt.fin 2])[10999]? = some (Flt.fin 0) :=
  ⟨by decide,
    ((adaptLength_spec [Flt.fin 1, Flt.fin 2]).2.2 (by decide)).1 1 (by decide),
    ((adaptLength_spec [Flt.fin 1, Flt.fin 2]).2.2 (by decide)).2 10999 (by decide) (by decide)⟩

/-! ## The Hamming window -/

/-- C7: on a buffer of length 1 `applyHammingWindow` is not skipped: the guard
covers length 0 only, the factor is computed from `2π · 0 / (1 - 1)`, a division
of zero by zero, and the single sample becomes NaN whatever it was. -/
theorem applyHammingWindow_singleton (cosf : ℚ → ℚ) (x : Flt) :
    applyHammingWindow cosf [x] = [Flt.nan] := by
  have hdiv : Flt.fin 2 * Flt.fin (314159 / 100000) * Flt.ofNat 0 / Flt.ofNat (1 - 1)
      = Flt.nan := by
    show Flt.div (Flt.mul (Flt.mul _ _) (Flt.ofNat 0)) (Flt.ofNat 0) = _
    simp [Flt.mul, Flt.div, Flt.ofNat]
  have hfac : hammingFactor cosf 0 1 = Flt.nan := by
    unfold hammingFactor
    rw [hdiv]
    rfl
  have hmul : x * Flt.nan = Flt.nan := by
    cases x <;> rfl
  simp [applyHammingWindow, List.enum, List.enumFrom, hfac, hmul]

/-! ## Pre-emphasis -/

theorem flt_fin_sub_mul (a c b : ℚ) :
    Flt.fin a - Flt.fin c * Flt.fin b = Flt.fin (a - c * b) := rfl

theorem preEmphasisLoop_length (c : Flt) :
    ∀ (i : Nat) (d : List Flt), (preEmphasisLoop c i d).length = d.length := by
  intro i
  induction i with
  | zero => intro d; rfl
  | succ i ih => intro d; simp [preEmphasisLoop, ih]

/-- The loop invariant of `applyPreEmphasis`: entered at index `i`, the loop leaves
the samples above `i` and the sample at 0 as they are, and replaces every sample
at `1 ≤ j ≤ i` by `d[j] - c * d[j - 1]`, both read from the buffer at entry. -/
theorem preEmphasisLoop_get (c : Flt) :
    ∀ (i : Nat) (d : List Flt), i < d.length →
      (∀ j, i < j → (preEmphasisLoop c i d)[j]? = d[j]?) ∧
      (preEmphasisLoop c i d)[0]? = d[0]? ∧
      (∀ j, 1 ≤ j → j ≤ i →
        (preEmphasisLoop c i d)[j]? = some (d.getD j Flt.nan - c * d.getD (j - 1) Flt.nan)) := by
  intro i
  induction i with
  | zero =>
    intro d _
    refine ⟨fun j _ => rfl, rfl, ?_⟩
    intro j h1 h0
    omega
  | succ i ih =>
    intro d hd
    have hlen : i < (d.set (i + 1)
        (d.getD (i + 1) Flt.nan - c * d.getD i Flt.nan)).length := by
      simp; omega
    obtain ⟨hup, hzero, hlow⟩ := ih _ hlen
    refine ⟨?_, ?_, ?_⟩
    · intro j hj
      show (preEmphasisLoop c i _)[j]? = _
      rw [hup j (by omega), List.getElem?_set_ne (by omega)]
    · show (preEmphasisLoop c i _)[0]? = _
      rw [hzero, List.getElem?_set_ne (by omega)]
    · intro j h1 hj
      show (preEmphasisLoop c i _)[j]? = _
      by_cases hji : j = i + 1
      · subst hji
        rw [hup (i + 1) (by omega), List.getElem?_set_self hd]
        simp
      · rw [hlow j h1 (by omega)]
        simp only [List.getD_eq_getElem?_getD]
        rw [List.getElem?_set_ne (by omega), List.getElem?_set_ne (by omega)]

theorem applyPreEmphasis_length (data : List Flt) (c : Flt) :
    (applyPreEmphasis data c).length = data.length := by
  unfold applyPreEmphasis
  split
  · rfl
  · exact preEmphasisLoop_length c _ data

/-- C5: `applyPreEmphasis` leaves a buffer of length at most 1 unchanged.  On a
buffer of length at least 2 it keeps the length and sample 0, and every sample at
`1 ≤ i < N` becomes `input[i] - c * input[i - 1]`, both operands being the values
before the call. -/
theorem applyPreEmphasis_spec (data : List Flt) (c : Flt) :
    (data.length ≤ 1 → applyPreEmphasis data c = data) ∧
    (2 ≤ data.length →
      (applyPreEmphasis data c).length = data.length ∧
      (applyPreEmphasis data c)[0]? = data[0]? ∧
      ∀ (i : Nat) (_ : 1 ≤ i) (hi : i < data.length),
        (applyPreEmphasis data c)[i]? = some (data[i] - c * data[i - 1])) := by
  constructor
  · intro h
    simp [applyPreEmphasis, h]
  · intro h
    refine ⟨applyPreEmphasis_length data c, ?_, ?_⟩
    · have hn : ¬ data.length ≤ 1 := by omega
      simp only [applyPreEmphasis, hn, if_false]
      exact (preEmphasisLoop_get c _ data (by omega)).2.1
    · intro i h1 hi
      have hn : ¬ data.length ≤ 1 := by omega
      simp only [applyPreEmphasis, hn, if_false]
      rw [(preEmphasisLoop_get c _ data (by omega)).2.2 i h1 (by omega)]
      rw [List.getD_eq_getElem data Flt.nan hi,
        List.getD_eq_getElem data Flt.nan (show i - 1 < data.length by omega)]

theorem applyPreEmphasis_spec_witness :
    2 ≤ ([Flt.fin 1, Flt.fin 2, Flt.fin 4] : List Flt).length ∧
    (applyPreEmphasis [Flt.fin 1, Flt.fin 2, Flt.fin 4] (Flt.fin (1 / 2)))[2]? =
      some (Flt.fin 4 - Flt.fin (1 / 2) * Flt.fin 2) :=
  ⟨by decide,
    ((applyPreEmphasis_spec [Flt.fin 1, Flt.fin 2, Flt.fin 4] (Flt.fin (1 / 2))).2
      (by decide)).2.2 2 (by decide) (by decide)⟩

/-! ## Peak normalization -/

theorem flt_max_fin_abs (m x : ℚ) :
    Flt.max (Flt.fin m) (Flt.abs (Flt.fin x)) = Flt.fin (max m |x|) := by
  by_cases h : m < |x|
  · simp [Flt.max, Flt.abs, Flt.lt, h, max_eq_right (le_of_lt h)]
  · simp [Flt.max, Flt.abs, Flt.lt, h, max_eq_left (not_lt.1 h)]

theorem foldl_max_fin (xs : List ℚ) :
    ∀ m : ℚ, (xs.map Flt.fin).foldl (fun m x => Flt.max m (Flt.abs x)) (Flt.fin m) =
      Flt.fin (xs.foldl (fun m x => max m |x|) m) := by
  induction xs with
  | nil => intro m; rfl
  | cons x xs ih =>
    intro m
    simp only [List.map_cons, List.foldl_cons, flt_max_fin_abs, ih]

theorem le_foldl_max (xs : List ℚ) :
    ∀ m : ℚ, m ≤ xs.foldl (fun m x => max m |x|) m := by
  induction xs with
  | nil => intro m; exact le_refl m
  | cons x xs ih =>
    intro m
    exact le_trans (le_max_left m |x|) (ih _)

theorem abs_le_foldl_max (xs : List ℚ) :
    ∀ m : ℚ, ∀ x ∈ xs, |x| ≤ xs.foldl (fun m x => max m |x|) m := by
  induction xs with
  | nil => intro m x hx; cases hx
  | cons a xs ih =>
    intro m x hx
    rcases List.mem_cons.1 hx with rfl | hx
    · exact le_trans (le_max_right m |x|) (le_foldl_max xs _)
    · exact ih _ x hx

theorem foldl_max_attained (xs : List ℚ) :
    ∀ m : ℚ, xs.foldl (fun m x => max m |x|) m = m ∨
      ∃ x ∈ xs, |x| = xs.foldl (fun m x => max m |x|) m := by
  induction xs with
  | nil => intro m; exact Or.inl rfl
  | cons a xs ih =>
    intro m
    rcases ih (max m |a|) with h | ⟨x, hx, h⟩
    · rcases max_choice m |a| with hm | hm
      · left
        simp only [List.foldl_cons]
        rw [h, hm]
      · right
        refine ⟨a, List.mem_cons_self a xs, ?_⟩
        simp only [List.foldl_cons]
        rw [h, hm]
    · exact Or.inr ⟨x, List.mem_cons_of_mem a hx, h⟩

theorem normalizeAudioData_fin (xs : List ℚ) (hne : xs ≠ []) :
    normalizeAudioData (xs.map Flt.fin) =
      if 0 < xs.foldl (fun m x => max m |x|) 0 then
        (xs.map (fun x => x / xs.foldl (fun m x => max m |x|) 0)).map Flt.fin
      else xs.map Flt.fin := by
  have hlen : ¬ (xs.map Flt.fin).length = 0 := by
    simpa using hne
  simp only [normalizeAudioData, hlen, if_false, foldl_max_fin]
  by_cases hpos : 0 < xs.foldl (fun m x => max m |x|) 0
  · have hnz : xs.foldl (fun m x => max m |x|) 0 ≠ 0 := ne_of_gt hpos
    simp only [Flt.lt, hpos, decide_True, if_true, List.map_map]
    apply List.map_congr_left
    intro x _
    show Flt.div (Flt.fin x) (Flt.fin _) = _
    simp [Flt.div, hnz]
  · simp [Flt.lt, hpos]

/-- C8: on a non-empty buffer of finite samples `normalizeAudioData` returns finite
samples of the same number.  If some input sample is nonzero, the largest absolute
value of the output is 1 (none exceeds 1 and one attains it); if all are zero the
buffer is unchanged and the largest absolute value is 0.  In both cases every
output sample lies in `[-1, 1]`. -/
theorem normalizeAudioData_peak (xs : List ℚ) (hne : xs ≠ []) :
    ∃ ys : List ℚ,
      normalizeAudioData (xs.map Flt.fin) = ys.map Flt.fin ∧
      ys.length = xs.length ∧
      ((∃ x ∈ xs, x ≠ 0) → (∀ y ∈ ys, |y| ≤ 1) ∧ ∃ y ∈ ys, |y| = 1) ∧
      ((∀ x ∈ xs, x = 0) → ys = xs ∧ ∀ y ∈ ys, |y| = 0) ∧
      (∀ y ∈ ys, -1 ≤ y ∧ y ≤ 1) := by
  have hfin := normalizeAudioData_fin xs hne
  have hub := abs_le_foldl_max xs 0
  have hat := foldl_max_attained xs 0
  by_cases hpos : 0 < xs.foldl (fun m x => max m |x|) 0
  · rw [if_pos hpos] at hfin
    have hle : ∀ y ∈ xs.map (fun x => x / xs.foldl (fun m x => max m |x|) 0), |y| ≤ 1 := by
      intro y hy
      obtain ⟨x, hx, rfl⟩ := List.mem_map.1 hy
      rw [abs_div, abs_of_pos hpos]
      exact (div_le_one hpos).2 (hub x hx)
    refine ⟨_, hfin, by simp, ?_, ?_, ?_⟩
    · intro _
      refine ⟨hle, ?_⟩
      rcases hat with h0 | ⟨x, hx, hxe⟩
      · rw [h0] at hpos; exact absurd hpos (lt_irrefl 0)
      · refine ⟨_, List.mem_map.2 ⟨x, hx, rfl⟩, ?_⟩
        rw [abs_div, abs_of_pos hpos, hxe]
        exact div_self (ne_of_gt hpos)
    · intro hall
      exfalso
      rcases hat with h0 | ⟨x, hx, hxe⟩
      · rw [h0] at hpos; exact lt_irrefl 0 hpos
      · rw [← hxe, hall x hx] at hpos
        simp at hpos
    · intro y hy
      exact abs_le.1 (hle y hy)
  · rw [if_neg hpos] at hfin
    have hzero : ∀ x ∈ xs, x = 0 := by
      intro x hx
      have h1 : |x| ≤ 0 := le_trans (hub x hx) (not_lt.1 hpos)
      exact abs_eq_zero.1 (le_antisymm h1 (abs_nonneg x))
    refine ⟨xs, hfin, rfl, ?_, ?_, ?_⟩
    · rintro ⟨x, hx, hx0⟩
      exact absurd (hzero x hx) hx0
    · intro _
      refine ⟨rfl, ?_⟩
      intro y hy
      rw [hzero y hy]; simp
    · intro y hy
      rw [hzero y hy]; constructor <;> norm_num

theorem normalizeAudioData_peak_witness :
    ([3, -6, 1] : List ℚ) ≠ [] ∧
    ∃ ys : List ℚ,
      normalizeAudioData (([3, -6, 1] : List ℚ).map Flt.fin) = ys.map Flt.fin ∧
      ys.length = ([3, -6, 1] : List ℚ).length ∧
      ((∃ x ∈ ([3, -6, 1] : List ℚ), x ≠ 0) → (∀ y ∈ ys, |y| ≤ 1) ∧ ∃ y ∈ ys, |y| = 1) ∧
      ((∀ x ∈ ([3, -6, 1] : List ℚ), x = 0) → ys = [3, -6, 1] ∧ ∀ y ∈ ys, |y| = 0) ∧
      (∀ y ∈ ys, -1 ≤ y ∧ y ≤ 1) :=
  ⟨by simp, normalizeAudioData_peak [3, -6, 1] (by simp)⟩

/-! ## Capture -/

theorem applyHammingWindow_length (cosf : ℚ → ℚ) (data : List Flt) :
    (applyHammingWindow cosf data).length = data.length := by
  unfold applyHammingWindow
  split <;> simp

theorem normalizeAudioData_length (data : List Flt) :
    (normalizeAudioData data).length = data.length := by
  unfold normalizeAudioData
  split
  · rfl
  · simp only
    split <;> simp

theorem preprocessAudioData_nonempty (cosf : ℚ → ℚ) (s : EdgeImpulseWrapper)
    (h : s.audioBuffer ≠ []) :
    (preprocessAudioData cosf s).1 = 0 ∧
    (preprocessAudioData cosf s).2.audioBuffer.length = 11000 := by
  have he : s.audioBuffer.isEmpty = false := by
    cases hb : s.audioBuffer with
    | nil => exact absurd hb h
    | cons a l => rfl
  simp [preprocessAudioData, he, applyPreEmphasis_length, normalizeAudioData_length,
    applyHammingWindow_length, adaptLength_length]

theorem bufferSize_bounds {s : EdgeImpulseWrapper} (h : ConfigValid s) :
    800 ≤ s.config.bufferSize ∧ s.config.bufferSize ≤ 240000 := by
  have hb := product_bounds h.1 h.2.1
  rw [h.2.2]
  omega

theorem toSizeT_of_bounds {w : Nat} (hw : 32 ≤ w) {x : Int} (h0 : 0 ≤ x) (h1 : x ≤ 240000) :
    toSizeT w x = x.toNat := by
  have hpow : (2 : Int) ^ 32 ≤ 2 ^ w := pow_le_pow_right₀ (by norm_num) hw
  have hlt : x < 2 ^ w := by
    norm_num at hpow
    omega
  simp [toSizeT, Int.emod_eq_of_lt h0 hlt]

theorem captureAudio_of_initialized (w : Nat) (cosf : ℚ → ℚ) (raw : Nat → Flt)
    (s : EdgeImpulseWrapper) (h : s.initialized = true) :
    captureAudio w cosf raw s =
      ((preprocessAudioData cosf
          { s with audioBuffer := (List.range (toSizeT w s.config.bufferSize)).map raw }).1 == 0,
        (preprocessAudioData cosf
          { s with audioBuffer := (List.range (toSizeT w s.config.bufferSize)).map raw }).2) := by
  unfold captureAudio
  rw [if_neg (by simp [h])]

/-- C10: in every state reached from the constructed wrapper by `initialize`,
`setSamplingFrequency`, `setSamplingDuration` and `captureAudio` calls in which
`initialized` is true, `bufferSize` is at least 800, and `captureAudio` on any
generated samples returns true and leaves an audio buffer of length exactly
11000.  The width `w` of `size_t` is at least 32 bits. -/
theorem captureAudio_succeeds (w : Nat) (hw : 32 ≤ w) (cosf : ℚ → ℚ) (cs : List Call)
    (raw : Nat → Flt) (hinit : (runCalls w cosf cs construct).initialized = true) :
    800 ≤ (runCalls w cosf cs construct).config.bufferSize ∧
    (captureAudio w cosf raw (runCalls w cosf cs construct)).1 = true ∧
    (captureAudio w cosf raw (runCalls w cosf cs construct)).2.audioBuffer.length = 11000 := by
  have hv := configValid_runCalls w cosf cs construct configValid_construct
  obtain ⟨hlo, hhi⟩ := bufferSize_bounds hv
  have hn : toSizeT w (runCalls w cosf cs construct).config.bufferSize ≠ 0 := by
    rw [toSizeT_of_bounds hw (by omega) hhi]
    omega
  have hne : (List.range (toSizeT w (runCalls w cosf cs construct).config.bufferSize)).map raw
      ≠ [] := by
    simpa using hn
  have hp := preprocessAudioData_nonempty cosf
    { runCalls w cosf cs construct with
      audioBuffer :=
        (List.range (toSizeT w (runCalls w cosf cs construct).config.bufferSize)).map raw }
    hne
  rw [captureAudio_of_initialized w cosf raw _ hinit]
  exact ⟨hlo, beq_iff_eq.2 hp.1, hp.2⟩

theorem captureAudio_succeeds_witness :
    32 ≤ 32 ∧
    (runCalls 32 cosPoly [Call.config ConfigCall.init] construct).initialized = true ∧
    800 ≤ (runCalls 32 cosPoly [Call.config ConfigCall.init] construct).config.bufferSize ∧
    (captureAudio 32 cosPoly (fun _ => Flt.fin 1)
      (runCalls 32 cosPoly [Call.config ConfigCall.init] construct)).1 = true ∧
    (captureAudio 32 cosPoly (fun _ => Flt.fin 1)
      (runCalls 32 cosPoly [Call.config ConfigCall.init] construct)).2.audioBuffer.length
      = 11000 :=
  ⟨le_refl 32, rfl,
    captureAudio_succeeds 32 (le_refl 32) cosPoly [Call.config ConfigCall.init]
      (fun _ => Flt.fin 1) rfl⟩

end VoiceRecognition
